import Mathlib

/-!
Verification of the reactive field-dependency engine in
src/utils/rxUtils/createSubscriptions.js.

The field-state tree and field property maps (immutable.js Map values) are
embedded as the inductive type Value; resolver functions are embedded as
interaction trees (each subscribe call is a node carrying the key path and a
continuation receiving the looked-up value). Observable side effects of the
engine (updateField, validateField, observer creation, delegated listener
creation) are collected into an explicit effect trace.
-/

set_option autoImplicit false

namespace ReactConform

/-- A JavaScript value as used by the engine: undefined, a string, a list of
strings (field paths), or an immutable.js Map embedded as an ordered
association list from string keys to values. -/
inductive Value where
  | undefined : Value
  | str : String → Value
  | strList : List String → Value
  | node : List (String × Value) → Value
deriving Repr

/-- Lookup in an ordered association list (first match wins). -/
def alookup {α : Type} (m : List (String × α)) (k : String) : Option α :=
  match m with
  | [] => none
  | (k2, v) :: rest => if k2 == k then some v else alookup rest k

/-- Overwrite or append a key in an ordered association list, preserving
insertion order as a JavaScript object does. -/
def aset {α : Type} (m : List (String × α)) (k : String) (v : α) : List (String × α) :=
  match m with
  | [] => [(k, v)]
  | (k2, v2) :: rest => if k2 == k then (k2, v) :: rest else (k2, v2) :: aset rest k v

/-- Map.get: property lookup on a node, undefined otherwise. -/
def Value.get : Value → String → Value
  | .node es, k => (alookup es k).getD .undefined
  | _, _ => .undefined

/-- Map.has: whether a node declares the given key. -/
def Value.has : Value → String → Bool
  | .node es, k => (alookup es k).isSome
  | _, _ => false

/-- Map.getIn: nested lookup along a key path, undefined when absent. -/
def Value.getIn : Value → List String → Value
  | v, [] => v
  | v, k :: ks => (v.get k).getIn ks

/-- Map.hasIn: whether the full key path exists in the tree. -/
def Value.hasIn : Value → List String → Bool
  | _, [] => true
  | .node es, k :: ks =>
      match alookup es k with
      | some w => w.hasIn ks
      | none => false
  | _, _ :: _ => false

/-- Map.setIn: replace the value at a key path, creating intermediate nodes. -/
def Value.setIn : Value → List String → Value → Value
  | _, [], x => x
  | .node es, k :: ks, x => .node (aset es k (((alookup es k).getD (.node [])).setIn ks x))
  | _, k :: ks, x => .node (aset [] k ((Value.node []).setIn ks x))

/-- Structural equality of embedded values, mirroring the equality the
underlying immutable container reports for its stored entries. -/
def Value.beq : Value → Value → Bool
  | .undefined, .undefined => true
  | .str a, .str b => a == b
  | .strList a, .strList b => a == b
  | .node a, .node b => beqEntries a b
  | _, _ => false
where
  /-- Pairwise equality of association-list entries. -/
  beqEntries : List (String × Value) → List (String × Value) → Bool
  | [], [] => true
  | (k1, v1) :: r1, (k2, v2) :: r2 => k1 == k2 && Value.beq v1 v2 && beqEntries r1 r2
  | _, _ => false

/-- JavaScript truthiness of an embedded value: undefined and the empty string
are falsy, every other embedded value is truthy. -/
def Value.truthy : Value → Bool
  | .undefined => false
  | .str s => !(s == "")
  | .strList _ => true
  | .node _ => true

/-- Coerce a value expected to be a list of path segments. -/
def Value.asStrList : Value → List String
  | .strList l => l
  | _ => []

/-- Coerce a value expected to be a string. -/
def Value.asStr : Value → String
  | .str s => s
  | _ => ""

/-- Dot-join path segments into a glued string key. -/
def joinDot (xs : List String) : String := String.intercalate "." xs

/-- Split a glued string key back into path segments at every dot, as the
JavaScript split method does on a single-character separator. -/
def splitDot (s : String) : List String :=
  (s.data.foldr
    (fun c segs =>
      if c == '.' then [] :: segs
      else
        match segs with
        | [] => [[c]]
        | seg :: rest => (c :: seg) :: rest)
    [[]]).map String.mk

/-- Modelled from the spec: the camelize helper is not under src. The
registration event name is derived deterministically from the target field
path as a camel-joined form of the path segments plus a fixed registered
suffix. -/
def camelize (parts : List String) : String :=
  match parts with
  | [] => ""
  | p :: rest => p ++ String.join (rest.map String.capitalize)

/-- A resolver function, embedded as its deterministic interaction with the
subscribe callable: either it finishes with a value, or it performs one
subscribe call on a key path and continues with the returned value. -/
inductive Resolver where
  | done : Value → Resolver
  | sub : List String → (Value → Resolver) → Resolver

/-- Outcome of one subscribe call made through the analysis-mode subscribe
function: the dependency map after the call, the value the call returns to
the resolver, and whether a diagnostic (warn with a false condition) was
emitted during the call. -/
structure SubscribeStep where
  targetsMap : List (String × List String)
  ret : Value
  warned : Bool

/-- One subscribe call during dependency analysis, transcribing the guard
callback of analyzeResolver (createSubscriptions.js lines 33 to 58) composed
with generateSubscribe (lines 13 to 20): a key path of length at most one is
rejected with a diagnostic; otherwise the path splits into the target field
path (all but the last segment) and the property name (the last segment); when
the target field is present in the tree an undeclared property name is
rejected with a diagnostic; a property already recorded for the target is a
deduplicating early return; otherwise the property is appended to the target
entry of the dependency map and the call returns the tree lookup. Whenever the
guard returns early, generateSubscribe sees a falsy result and the call
returns undefined without the tree lookup. -/
def analyzeSubscribeStep (fields : Value) (targetsMap : List (String × List String))
    (keyPath : List String) : SubscribeStep :=
  if keyPath.length > 1 then
    let fieldPath := keyPath.dropLast
    let propName := keyPath.getLast?.getD ""
    let isValidPropName :=
      if fields.hasIn fieldPath then (fields.getIn fieldPath).has propName else true
    if isValidPropName then
      let gluedPath := joinDot fieldPath
      let prevProps := (alookup targetsMap gluedPath).getD []
      if propName ∈ prevProps then
        { targetsMap := targetsMap, ret := .undefined, warned := false }
      else
        { targetsMap := aset targetsMap gluedPath (prevProps ++ [propName]),
          ret := fields.getIn keyPath, warned := false }
    else
      { targetsMap := targetsMap, ret := .undefined, warned := true }
  else
    { targetsMap := targetsMap, ret := .undefined, warned := true }

/-- Run a resolver under the analysis-mode subscribe function, threading the
dependency map and the diagnostic count through its subscribe calls. -/
def runResolverTracked (fields : Value) :
    Resolver → List (String × List String) → Nat →
    List (String × List String) × Nat × Value
  | .done v, m, w => (m, w, v)
  | .sub kp k, m, w =>
      let s := analyzeSubscribeStep fields m kp
      runResolverTracked fields (k s.ret) s.targetsMap (w + (if s.warned then 1 else 0))

/-- Result of analyzeResolver: the dependency map, the initial value returned
by the resolver, and the number of diagnostics emitted during the run. -/
structure AnalyzeResult where
  targetsMap : List (String × List String)
  initialValue : Value
  warnCount : Nat

/-- analyzeResolver (lines 29 to 63): runs the resolver once under the
analysis-mode subscribe function, starting from a fresh empty dependency map
(line 30), and returns the accumulated map together with the initial value. -/
def analyzeResolver (fields : Value) (resolver : Resolver) : AnalyzeResult :=
  let r := runResolverTracked fields resolver [] 0
  { targetsMap := r.1, initialValue := r.2.2, warnCount := r.2.1 }

/-- Run a resolver under the non-tracking subscribe function
(generateSubscribe with no callback, used during live recomputation at line
92): every subscribe call returns the tree lookup and records nothing. -/
def runResolver (fields : Value) : Resolver → Value
  | .done v => v
  | .sub kp k => runResolver fields (k (fields.getIn kp))

/-- The part of the form container the engine reads: the current field-state
tree held in form state. -/
structure Form where
  fields : Value

/-- An observable side effect of the engine: a call to the forms updateField,
a call to the forms validateField, the creation of a props-change observer on
a target path, or the creation of a delegated registration listener for an
event name. -/
inductive Effect where
  | update : List String → String → Value → Effect
  | validate : Bool → List String → Value → Bool → Value → Effect
  | observerCreated : List String → List String → Effect
  | delegatedCreated : String → Effect

/-- Whether an effect is an updateField call. -/
def Effect.isUpdate : Effect → Bool
  | .update _ _ _ => true
  | _ => false

/-- Whether an effect is a validateField call. -/
def Effect.isValidate : Effect → Bool
  | .validate _ _ _ _ _ => true
  | _ => false

/-- Whether an effect is the creation of a props-change observer. -/
def Effect.isObserverCreated : Effect → Bool
  | .observerCreated _ _ => true
  | _ => false

/-- Whether an effect is the creation of a delegated registration listener. -/
def Effect.isDelegatedCreated : Effect → Bool
  | .delegatedCreated _ => true
  | _ => false

/-- A props-change event as delivered to the observer subscription handler:
the next properties of the target field, and the optional shouldValidate
flag, absent (none) on ordinary change events and set explicitly on the
synthetic event delivered by the delegated binder. -/
structure ChangeEvent where
  nextContextProps : Value
  shouldValidate : Option Bool

/-- The predicate passed to addPropsObserver (lines 81 to 83): a tracked
property qualifies when its value in the previous and next snapshots of the
target field differ. -/
def observerPredicate (propName : String) (prevContextProps nextContextProps : Value) : Bool :=
  !(Value.beq (prevContextProps.get propName) (nextContextProps.get propName))

/-- Modelled from the spec: addPropsObserver is not under src. The change
listener it establishes is scoped to the tracked property names; an incoming
change on the target field qualifies and reaches the handler exactly when the
predicate holds for some tracked property. -/
def observerQualifies (targetProps : List String) (prevContextProps nextContextProps : Value) : Bool :=
  targetProps.any fun propName => observerPredicate propName prevContextProps nextContextProps

/-- Modelled from the spec: form.updateField is an external collaborator that
applies a partial property patch to one field and resolves with the next field
properties. -/
def updateFieldProps (fieldProps : Value) (propName : String) (propValue : Value) : Value :=
  match fieldProps with
  | .node es => .node (aset es propName propValue)
  | v => v

/-- The observer subscription handler (lines 88 to 113), as the ordered trace
of effects it performs for one delivered event: shouldValidate defaults to
true when absent from the event; the next field-state tree is the current
tree with the target path replaced by the next properties; the next prop
value is the resolver re-run under the non-tracking subscribe bound to that
tree; updateField is awaited with the subscriber field path and the patch of
the reactive prop to the next value; then validateField is called with force
and forceProps exactly when shouldValidate is true. -/
def observerHandler (targetPath : List String) (rxPropName : String) (resolver : Resolver)
    (fieldProps : Value) (form : Form) (ev : ChangeEvent) : List Effect :=
  let shouldValidate := ev.shouldValidate.getD true
  let subscriberPath := (fieldProps.get "fieldPath").asStrList
  let nextFields := form.fields.setIn targetPath ev.nextContextProps
  let nextPropValue := runResolver nextFields resolver
  let updatedFieldProps := updateFieldProps fieldProps rxPropName nextPropValue
  Effect.update subscriberPath rxPropName nextPropValue ::
    (if shouldValidate then
      [Effect.validate true subscriberPath updatedFieldProps true nextFields]
    else [])

/-- Modelled from the spec: delivery of an ordinary change event through
addPropsObserver. The handler runs only when the event qualifies on some
tracked property; otherwise the observer stays inert and performs nothing. -/
def observerDeliver (targetPath : List String) (targetProps : List String) (rxPropName : String)
    (resolver : Resolver) (fieldProps : Value) (form : Form)
    (prevContextProps : Value) (ev : ChangeEvent) : List Effect :=
  if observerQualifies targetProps prevContextProps ev.nextContextProps then
    observerHandler targetPath rxPropName resolver fieldProps form ev
  else []

/-- The per-reactive-prop body of createSubscriptions (lines 125 to 178), as
the ordered trace of effects: analyze the resolver, push the initial value
through updateField unconditionally, and then for each target path of the
dependency map create a props-change observer when the target field is
mounted in the tree, and a delegated registration listener otherwise. -/
def subscriptionEffectsFor (fieldProps fields : Value) (rxPropName : String)
    (resolver : Resolver) : List Effect :=
  let res := analyzeResolver fields resolver
  Effect.update (fieldProps.get "fieldPath").asStrList rxPropName res.initialValue ::
    (res.targetsMap.map Prod.fst).map fun gluedPath =>
      let targetPath := splitDot gluedPath
      if fields.hasIn targetPath then
        Effect.observerCreated targetPath ((alookup res.targetsMap gluedPath).getD [])
      else
        Effect.delegatedCreated (camelize (targetPath ++ ["registered"]))

/-- createSubscriptions (lines 121 to 180): a field with no reactiveProps is
a no-op; otherwise each declared reactive prop is processed independently in
declaration order. -/
def createSubscriptions (rxProps : Option (List (String × Resolver)))
    (fieldProps fields : Value) : List Effect :=
  match rxProps with
  | none => []
  | some l => (l.map fun p => subscriptionEffectsFor fieldProps fields p.1 p.2).flatten

/-- The delegated registration handler (lines 159 to 177), as the ordered
trace of effects it performs when the registration event fires with the just
registered fields properties as payload: re-analyze the resolver against the
forms current field-state tree, extract the property list recorded for the
delegated target path from the fresh map (an absent entry yields no tracked
properties), compute shouldValidate as the truthiness of the subscriber
fields own value under its designated value prop name, create the full
props-change observer, and immediately deliver one synthetic change event to
it carrying the payload and the computed shouldValidate. -/
def delegatedHandlerEffects (gluedPath : String) (targetPath : List String)
    (rxPropName : String) (resolver : Resolver) (fieldProps : Value) (form : Form)
    (delegatedField : Value) : List Effect :=
  let res := analyzeResolver form.fields resolver
  let targetProps := (alookup res.targetsMap gluedPath).getD []
  let shouldValidate := (fieldProps.get ((fieldProps.get "valuePropName").asStr)).truthy
  Effect.observerCreated targetPath targetProps ::
    observerHandler targetPath rxPropName resolver fieldProps form
      { nextContextProps := delegatedField, shouldValidate := some shouldValidate }

/-- The atomic steps of the delegated registration handler in source order
(lines 160 to 176): unsubscribe the registration listener, re-run the
dependency analysis, create the full props-change observer, deliver the
synthetic change event. -/
inductive DelegatedAction where
  | unsubscribeSelf : DelegatedAction
  | reanalyzeDeps : DelegatedAction
  | createObserverStep : DelegatedAction
  | deliverSynthetic : DelegatedAction
deriving DecidableEq

/-- The action order of the delegated handler body as written in the source:
delegatedSubscription.unsubscribe() is the first statement (line 160), before
the re-analysis (line 165), the observer creation (line 175) and the
synthetic delivery (line 176). -/
def delegatedHandlerActions : List DelegatedAction :=
  [.unsubscribeSelf, .reanalyzeDeps, .createObserverStep, .deliverSynthetic]

/-- The lifecycle state of one delegated registration listener: whether the
underlying event subscription is still active, and how many times the handler
body has executed. -/
structure DelegatedBinder where
  active : Bool
  bodyRuns : Nat
deriving DecidableEq

/-- Modelled from the spec: the forms event emitter delivers an emission only
to listeners whose subscription is active. One emission of the registration
event therefore runs the handler when the listener is active, in which case
the listener is deactivated as the handler performs its first action and the
body runs once; an inactive listener receives nothing. -/
def delegatedFire (b : DelegatedBinder) : DelegatedBinder × List DelegatedAction :=
  if b.active then
    ({ active := false, bodyRuns := b.bodyRuns + 1 }, delegatedHandlerActions)
  else (b, [])

/-- Deliver a sequence of emissions of the registration event to the
delegated listener. -/
def delegatedFireMany : Nat → DelegatedBinder → DelegatedBinder
  | 0, b => b
  | n + 1, b => delegatedFireMany n (delegatedFire b).1

/-- The freshly armed delegated listener: active, body never run. -/
def initialDelegatedBinder : DelegatedBinder :=
  { active := true, bodyRuns := 0 }

/-- Modelled from the spec: repeated invocation of analyzeResolver threaded
through the state an earlier call leaves behind. The source allocates a fresh
empty dependency map at line 30 on every call, so the incoming state is
ignored and the outgoing state is the map this call accumulated. -/
def analyzeResolverCall (fields : Value) (resolver : Resolver)
    (_lastMap : List (String × List String)) :
    AnalyzeResult × List (String × List String) :=
  let r := analyzeResolver fields resolver
  (r, r.targetsMap)

/-- A dependency map in which every recorded property list is duplicate
free. -/
def MapNodup (m : List (String × List String)) : Prop :=
  ∀ k l, alookup m k = some l → l.Nodup

/-- Concrete field-state tree for closed instances: one mounted field named a
whose only declared property is value, holding the string x. -/
def exFields : Value :=
  Value.node [("a", Value.node [("value", Value.str "x")])]

/-- Concrete subscriber field properties: field path b, designated value prop
name value, currently holding the empty string. -/
def exFieldProps : Value :=
  Value.node
    [("fieldPath", Value.strList ["b"]), ("valuePropName", Value.str "value"),
      ("value", Value.str "")]

/-- Concrete subscriber field properties holding a non-empty value q. -/
def exFieldPropsFilled : Value :=
  Value.node
    [("fieldPath", Value.strList ["b"]), ("valuePropName", Value.str "value"),
      ("value", Value.str "q")]

/-- Concrete form holding the concrete field-state tree. -/
def exForm : Form := { fields := exFields }

/-- Concrete resolver reading the value property of field a once. -/
def exResolverOnce : Resolver :=
  Resolver.sub ["a", "value"] fun v => Resolver.done v

/-- Concrete resolver reading the value property of field a twice. -/
def exResolverTwice : Resolver :=
  Resolver.sub ["a", "value"] fun _ => Resolver.sub ["a", "value"] fun v => Resolver.done v

/-- Concrete resolver reading the mounted field a and the unmounted field
c. -/
def exResolverTwo : Resolver :=
  Resolver.sub ["a", "value"] fun _ => Resolver.sub ["c", "value"] fun v => Resolver.done v

/-- Concrete resolver performing no subscribe call. -/
def exResolverNone : Resolver := Resolver.done (Value.str "static")

end ReactConform

namespace ReactConform

/-- C8: a key path of length at most one passed to subscribe during
dependency analysis emits a diagnostic, the call returns undefined, and the
path is never added to the dependency map, which is left unchanged. -/
theorem subscribe_short_path_rejected (fields : Value) (m : List (String × List String))
    (keyPath : List String) (h : keyPath.length ≤ 1) :
    analyzeSubscribeStep fields m keyPath =
      { targetsMap := m, ret := Value.undefined, warned := true } := by
  have h2 : ¬ keyPath.length > 1 := by omega
  simp [analyzeSubscribeStep, h2]

/-- Witness for C8 at the concrete one-segment path a. -/
theorem subscribe_short_path_rejected_witness :
    analyzeSubscribeStep exFields [] ["a"] =
      { targetsMap := [], ret := Value.undefined, warned := true } :=
  subscribe_short_path_rejected exFields [] ["a"] (by decide)

/-- C1 as stated is false on the code: subscribing to the undeclared
property missing of the mounted field a emits a diagnostic, yet the
dependency map is left without the pair (the guard returns before
recording). -/
theorem undeclared_prop_not_tracked_cex :
    (analyzeSubscribeStep exFields [] ["a", "missing"]).warned = true ∧
    alookup (analyzeSubscribeStep exFields [] ["a", "missing"]).targetsMap "a" = none :=
  ⟨rfl, rfl⟩

/-- C1 amended: for a subscribe call during dependency analysis whose key
path has length at least two and whose target field is present in the
field-state tree, if the final segment names a property the target field
does not declare, a diagnostic is emitted, the dependency is NOT recorded
(the dependency map is left unchanged), and the call returns undefined. -/
theorem undeclared_prop_not_tracked (fields : Value) (m : List (String × List String))
    (keyPath : List String) (h1 : keyPath.length > 1)
    (h2 : fields.hasIn keyPath.dropLast = true)
    (h3 : (fields.getIn keyPath.dropLast).has (keyPath.getLast?.getD "") = false) :
    analyzeSubscribeStep fields m keyPath =
      { targetsMap := m, ret := Value.undefined, warned := true } := by
  simp [analyzeSubscribeStep, h1, h2, h3]

/-- Witness for the amended C1 at the concrete path a.missing over the
concrete tree. -/
theorem undeclared_prop_not_tracked_witness :
    analyzeSubscribeStep exFields [] ["a", "missing"] =
      { targetsMap := [], ret := Value.undefined, warned := true } :=
  undeclared_prop_not_tracked exFields [] ["a", "missing"] (by decide) (by rfl) (by rfl)

/-- C5 as stated is false on the code: a repeated subscribe call with a path
already recorded in the dependency map leaves the map unchanged but returns
undefined, not the looked-up value (the deduplicating guard returns a falsy
result, so generateSubscribe skips the tree lookup). -/
theorem duplicate_subscribe_returns_undefined_cex :
    (analyzeSubscribeStep exFields
        (analyzeSubscribeStep exFields [] ["a", "value"]).targetsMap ["a", "value"]).targetsMap =
      (analyzeSubscribeStep exFields [] ["a", "value"]).targetsMap ∧
    (analyzeSubscribeStep exFields
        (analyzeSubscribeStep exFields [] ["a", "value"]).targetsMap ["a", "value"]).ret =
      Value.undefined ∧
    exFields.getIn ["a", "value"] = Value.str "x" ∧
    (analyzeSubscribeStep exFields
        (analyzeSubscribeStep exFields [] ["a", "value"]).targetsMap ["a", "value"]).ret ≠
      exFields.getIn ["a", "value"] :=
  ⟨rfl, rfl, rfl, fun h => Value.noConfusion h⟩

/-- C5 amended: during analysis, a subscribe call with a key path of length
at least two whose property name passes validation returns the tree lookup
and records the dependency when the property is not yet recorded for the
target path; a repeated call with an already recorded path is a deduplicating
no-op that leaves the map unchanged but returns undefined. -/
theorem subscribe_valid_path_result (fields : Value) (m : List (String × List String))
    (keyPath : List String) (h1 : keyPath.length > 1)
    (h2 : (if fields.hasIn keyPath.dropLast then
        (fields.getIn keyPath.dropLast).has (keyPath.getLast?.getD "") else true) = true) :
    (keyPath.getLast?.getD "" ∉ (alookup m (joinDot keyPath.dropLast)).getD [] →
      analyzeSubscribeStep fields m keyPath =
        { targetsMap := aset m (joinDot keyPath.dropLast)
            ((alookup m (joinDot keyPath.dropLast)).getD [] ++ [keyPath.getLast?.getD ""]),
          ret := fields.getIn keyPath, warned := false }) ∧
    (keyPath.getLast?.getD "" ∈ (alookup m (joinDot keyPath.dropLast)).getD [] →
      analyzeSubscribeStep fields m keyPath =
        { targetsMap := m, ret := Value.undefined, warned := false }) := by
  constructor
  · intro hmem
    simp [analyzeSubscribeStep, h1, h2, hmem]
  · intro hmem
    simp [analyzeSubscribeStep, h1, h2, hmem]

/-- Witness for the amended C5: the first call on the concrete path a.value
records the dependency and returns the stored value, the repeated call leaves
the map unchanged and returns undefined. -/
theorem subscribe_valid_path_result_witness :
    analyzeSubscribeStep exFields [] ["a", "value"] =
      { targetsMap := [("a", ["value"])], ret := Value.str "x", warned := false } ∧
    analyzeSubscribeStep exFields [("a", ["value"])] ["a", "value"] =
      { targetsMap := [("a", ["value"])], ret := Value.undefined, warned := false } :=
  ⟨(subscribe_valid_path_result exFields [] ["a", "value"] (by decide) (by rfl)).1
      (by decide),
    (subscribe_valid_path_result exFields [("a", ["value"])] ["a", "value"] (by decide)
        (by rfl)).2 (by decide)⟩

/-- Lookup after an overwrite-or-append update of an association list. -/
theorem alookup_aset {α : Type} (m : List (String × α)) (k k2 : String) (v : α) :
    alookup (aset m k v) k2 = if k = k2 then some v else alookup m k2 := by
  induction m with
  | nil =>
      by_cases h : k = k2 <;> simp [aset, alookup, h]
  | cons p rest ih =>
      obtain ⟨k3, v3⟩ := p
      by_cases h3 : k3 = k
      · subst h3
        by_cases h : k3 = k2 <;> simp [aset, alookup, h]
      · by_cases h2 : k3 = k2
        · subst h2
          have hk : ¬ k = k3 := fun hh => h3 hh.symm
          simp [aset, alookup, h3, hk]
        · simp [aset, alookup, h3, h2, ih]

/-- One analysis-mode subscribe call either leaves the dependency map
untouched or appends one not-yet-recorded property name to one target
entry. -/
theorem analyzeSubscribeStep_targetsMap_cases (fields : Value)
    (m : List (String × List String)) (kp : List String) :
    (analyzeSubscribeStep fields m kp).targetsMap = m ∨
    ∃ g p, p ∉ (alookup m g).getD [] ∧
      (analyzeSubscribeStep fields m kp).targetsMap =
        aset m g ((alookup m g).getD [] ++ [p]) := by
  unfold analyzeSubscribeStep
  by_cases h1 : kp.length > 1
  · simp only [h1, if_true]
    by_cases h2 : (if fields.hasIn kp.dropLast then
        (fields.getIn kp.dropLast).has (kp.getLast?.getD "") else true) = true
    · simp only [h2, if_true]
      by_cases h3 : kp.getLast?.getD "" ∈ (alookup m (joinDot kp.dropLast)).getD []
      · simp [h3]
      · simp only [h3, if_false]
        right
        exact ⟨joinDot kp.dropLast, kp.getLast?.getD "", h3, rfl⟩
    · simp [h2]
  · simp [h1]

/-- One analysis-mode subscribe call preserves duplicate freedom of every
recorded property list. -/
theorem mapNodup_step (fields : Value) (m : List (String × List String))
    (kp : List String) (h : MapNodup m) :
    MapNodup (analyzeSubscribeStep fields m kp).targetsMap := by
  rcases analyzeSubscribeStep_targetsMap_cases fields m kp with hc | ⟨g, p, hp, hc⟩
  · rw [hc]; exact h
  · rw [hc]
    intro k l hl
    rw [alookup_aset] at hl
    by_cases hg : g = k
    · simp only [hg, if_true] at hl
      have hprev : ((alookup m k).getD []).Nodup := by
        cases hprev : alookup m k with
        | none => simp
        | some l0 => simpa using h k l0 hprev
      have hl2 : l = (alookup m k).getD [] ++ [p] := (Option.some_inj.mp hl).symm
      rw [hg] at hp
      rw [hl2]
      refine List.Nodup.append hprev (List.nodup_singleton p) ?_
      intro a ha hamem
      have hap : a = p := by simpa using hamem
      exact hp (hap ▸ ha)
    · simp only [hg, if_false] at hl
      exact h k l hl

/-- Running a resolver under the analysis-mode subscribe function preserves
duplicate freedom of every recorded property list. -/
theorem runResolverTracked_mapNodup (fields : Value) (r : Resolver) :
    ∀ m w, MapNodup m → MapNodup (runResolverTracked fields r m w).1 := by
  induction r with
  | done v => intro m w h; exact h
  | sub kp k ih =>
      intro m w h
      exact ih _ _ _ (mapNodup_step fields m kp h)

/-- C7: in every dependency map produced by a single run of the dependency
analyzer, the property-name list associated with any target field path
contains no property name more than once. -/
theorem targetsMap_props_nodup (fields : Value) (resolver : Resolver) (k : String)
    (l : List String) (h : alookup (analyzeResolver fields resolver).targetsMap k = some l) :
    l.Nodup :=
  runResolverTracked_mapNodup fields resolver [] 0
    (fun k2 l2 hc => by simp [alookup] at hc) k l h

/-- Witness for C7: a resolver subscribing twice to the same path a.value
yields exactly the one-entry duplicate-free list for the target a. -/
theorem targetsMap_props_nodup_witness :
    alookup (analyzeResolver exFields exResolverTwice).targetsMap "a" = some ["value"] ∧
    List.Nodup ["value"] :=
  ⟨rfl, targetsMap_props_nodup exFields exResolverTwice "a" ["value"] rfl⟩

/-- Delivering any number of emissions to an inactive delegated listener
changes nothing. -/
theorem delegatedFireMany_inactive (n r : Nat) :
    delegatedFireMany n { active := false, bodyRuns := r } =
      { active := false, bodyRuns := r } := by
  induction n with
  | zero => rfl
  | succ n ih => simpa [delegatedFireMany, delegatedFire] using ih

/-- C2: when the registration event for a delegated target fires, the
registration listener is unsubscribed as the very first action of the handler,
before any other work; consequently over any sequence of emissions of the
same event name the delegated handler body executes at most once, exactly
once as soon as one emission occurs, and a further emission after that
delivers nothing. -/
theorem delegated_at_most_once (n : Nat) :
    (delegatedFire initialDelegatedBinder).2.head? = some DelegatedAction.unsubscribeSelf ∧
    (delegatedFire initialDelegatedBinder).1.active = false ∧
    (delegatedFireMany n initialDelegatedBinder).bodyRuns ≤ 1 ∧
    (delegatedFireMany (n + 1) initialDelegatedBinder).bodyRuns = 1 ∧
    (delegatedFire (delegatedFireMany (n + 1) initialDelegatedBinder)).2 = [] := by
  have hstep : (delegatedFire initialDelegatedBinder).1 =
      { active := false, bodyRuns := 1 } := rfl
  have hmany : ∀ m : Nat, delegatedFireMany (m + 1) initialDelegatedBinder =
      { active := false, bodyRuns := 1 } := by
    intro m
    show delegatedFireMany m (delegatedFire initialDelegatedBinder).1 = _
    rw [hstep, delegatedFireMany_inactive]
  refine ⟨rfl, rfl, ?_, ?_, ?_⟩
  · cases n with
    | zero => simp [delegatedFireMany, initialDelegatedBinder]
    | succ m => rw [hmany m]
  · rw [hmany n]
  · rw [hmany n]; rfl

/-- C10: repeated invocation of the dependency analyzer on a fixed tree and
resolver is idempotent: the result is independent of the state any earlier
call left behind, a second call right after a first returns the same result,
and every call accumulates into a fresh empty dependency map. -/
theorem analyzeResolver_fresh_each_call (fields : Value) (resolver : Resolver)
    (w1 w2 : List (String × List String)) :
    (analyzeResolverCall fields resolver w1).1 = (analyzeResolverCall fields resolver w2).1 ∧
    (analyzeResolverCall fields resolver (analyzeResolverCall fields resolver w1).2).1 =
      (analyzeResolverCall fields resolver w1).1 ∧
    (analyzeResolverCall fields resolver w1).1.targetsMap =
      (runResolverTracked fields resolver [] 0).1 :=
  ⟨rfl, rfl, rfl⟩

/-- C3: for every reactive property, the orchestrator pushes the initial
value into the subscriber field through updateField first and
unconditionally; when the dependency map is empty that push is the only
effect, so no observer and no delegated listener is created; and for each
target path in the map a change observer is created exactly when the target
field is present in the field-state tree, a delegated listener otherwise. -/
theorem orchestrator_initial_push_and_wiring (fieldProps fields : Value)
    (rxPropName : String) (resolver : Resolver) :
    (subscriptionEffectsFor fieldProps fields rxPropName resolver).head? =
      some (Effect.update (fieldProps.get "fieldPath").asStrList rxPropName
        (analyzeResolver fields resolver).initialValue) ∧
    ((analyzeResolver fields resolver).targetsMap = [] →
      subscriptionEffectsFor fieldProps fields rxPropName resolver =
        [Effect.update (fieldProps.get "fieldPath").asStrList rxPropName
          (analyzeResolver fields resolver).initialValue]) ∧
    (∀ gluedPath ∈ (analyzeResolver fields resolver).targetsMap.map Prod.fst,
      (fields.hasIn (splitDot gluedPath) = true →
        Effect.observerCreated (splitDot gluedPath)
          ((alookup (analyzeResolver fields resolver).targetsMap gluedPath).getD []) ∈
            subscriptionEffectsFor fieldProps fields rxPropName resolver) ∧
      (fields.hasIn (splitDot gluedPath) = false →
        Effect.delegatedCreated (camelize (splitDot gluedPath ++ ["registered"])) ∈
          subscriptionEffectsFor fieldProps fields rxPropName resolver)) ∧
    (∀ tp props, Effect.observerCreated tp props ∈
        subscriptionEffectsFor fieldProps fields rxPropName resolver →
      fields.hasIn tp = true) ∧
    (∀ evName, Effect.delegatedCreated evName ∈
        subscriptionEffectsFor fieldProps fields rxPropName resolver →
      ∃ gluedPath ∈ (analyzeResolver fields resolver).targetsMap.map Prod.fst,
        fields.hasIn (splitDot gluedPath) = false ∧
        evName = camelize (splitDot gluedPath ++ ["registered"])) := by
  refine ⟨rfl, ?_, ?_, ?_, ?_⟩
  · intro h
    simp [subscriptionEffectsFor, h]
  · intro g hg
    refine ⟨fun hmount => ?_, fun hmount => ?_⟩
    · simp only [subscriptionEffectsFor, List.mem_cons, List.mem_map]
      rw [List.mem_map] at hg
      refine Or.inr ⟨g, hg, ?_⟩
      simp [hmount]
    · simp only [subscriptionEffectsFor, List.mem_cons, List.mem_map]
      rw [List.mem_map] at hg
      refine Or.inr ⟨g, hg, ?_⟩
      simp [hmount]
  · intro tp props hmem
    simp only [subscriptionEffectsFor, List.mem_cons, List.mem_map] at hmem
    rcases hmem with hbad | ⟨g, hg, heq⟩
    · exact absurd hbad (by simp)
    · by_cases hm : fields.hasIn (splitDot g) = true
      · simp only [hm, if_true] at heq
        have htp : splitDot g = tp := (Effect.observerCreated.injEq _ _ _ _).mp heq |>.1
        rw [← htp]
        exact hm
      · rw [if_neg (by simpa using hm)] at heq
        exact absurd heq (by simp)
  · intro evName hmem
    simp only [subscriptionEffectsFor, List.mem_cons, List.mem_map] at hmem
    rcases hmem with hbad | ⟨g, hg, heq⟩
    · exact absurd hbad (by simp)
    · by_cases hm : fields.hasIn (splitDot g) = true
      · simp only [hm, if_true] at heq
        exact absurd heq (by simp)
      · rw [if_neg (by simpa using hm)] at heq
        refine ⟨g, List.mem_map.mpr hg, by simpa using hm, ?_⟩
        exact ((Effect.delegatedCreated.injEq _ _).mp heq).symm

/-- Witness for C3 over the concrete tree with field a mounted and field c
absent: the resolver reading a.value and c.value produces an observer for a
and a delegated listener named cRegistered. -/
theorem orchestrator_initial_push_and_wiring_witness :
    Effect.observerCreated ["a"] ["value"] ∈
      subscriptionEffectsFor exFieldProps exFields "label" exResolverTwo ∧
    Effect.delegatedCreated "cRegistered" ∈
      subscriptionEffectsFor exFieldProps exFields "label" exResolverTwo := by
  have h := orchestrator_initial_push_and_wiring exFieldProps exFields "label" exResolverTwo
  exact ⟨(h.2.2.1 "a" (by decide)).1 (by rfl), (h.2.2.1 "c" (by decide)).2 (by rfl)⟩

/-- C4: on a qualifying change event (previous and next snapshots of the
target field differ on a tracked property), the observer handler in order
recomputes the resolver against the tree updated at the target path with the
next properties, calls updateField with the subscriber field path and the
patch of the reactive prop to the recomputed value, and then calls
validateField with force and forceProps exactly when shouldValidate is true,
shouldValidate defaulting to true when absent from the event. -/
theorem observer_handler_order (targetPath : List String) (rxPropName : String)
    (resolver : Resolver) (fieldProps : Value) (form : Form) (prevContextProps : Value)
    (targetProps : List String) (ev : ChangeEvent)
    (hq : observerQualifies targetProps prevContextProps ev.nextContextProps = true) :
    observerDeliver targetPath targetProps rxPropName resolver fieldProps form prevContextProps ev =
      Effect.update (fieldProps.get "fieldPath").asStrList rxPropName
          (runResolver (form.fields.setIn targetPath ev.nextContextProps) resolver) ::
        (if ev.shouldValidate.getD true then
          [Effect.validate true (fieldProps.get "fieldPath").asStrList
            (updateFieldProps fieldProps rxPropName
              (runResolver (form.fields.setIn targetPath ev.nextContextProps) resolver))
            true (form.fields.setIn targetPath ev.nextContextProps)]
        else []) ∧
    (ev.shouldValidate = none → ev.shouldValidate.getD true = true) := by
  refine ⟨?_, fun h => by rw [h]; rfl⟩
  simp [observerDeliver, hq, observerHandler]

/-- Witness for C4: a concrete change of a.value from x to y with no
shouldValidate flag yields the update to the recomputed value y followed by
the forced validation. -/
theorem observer_handler_order_witness :
    observerDeliver ["a"] ["value"] "label" exResolverOnce exFieldProps exForm
        (Value.node [("value", Value.str "x")])
        { nextContextProps := Value.node [("value", Value.str "y")],
          shouldValidate := none } =
      [Effect.update ["b"] "label" (Value.str "y"),
        Effect.validate true ["b"] (updateFieldProps exFieldProps "label" (Value.str "y"))
          true (exFields.setIn ["a"] (Value.node [("value", Value.str "y")]))] := by
  have h := (observer_handler_order ["a"] "label" exResolverOnce exFieldProps exForm
      (Value.node [("value", Value.str "x")]) ["value"]
      { nextContextProps := Value.node [("value", Value.str "y")], shouldValidate := none }
      (by rfl)).1
  simpa using h

/-- C6: the delegated registration handler creates a full change observer and
immediately delivers to it exactly one synthetic change event whose next
properties are the just registered fields properties, hence exactly one
additional updateField call with the recomputed value occurs, and
validateField is invoked exactly when the subscriber field holds a non-empty
value under its own designated value property name. -/
theorem delegated_synthetic_delivery (gluedPath : String) (targetPath : List String)
    (rxPropName : String) (resolver : Resolver) (fieldProps : Value) (form : Form)
    (delegatedField : Value) (s : String)
    (hv : fieldProps.get ((fieldProps.get "valuePropName").asStr) = Value.str s) :
    (delegatedHandlerEffects gluedPath targetPath rxPropName resolver fieldProps form
        delegatedField).countP Effect.isUpdate = 1 ∧
    Effect.update (fieldProps.get "fieldPath").asStrList rxPropName
        (runResolver (form.fields.setIn targetPath delegatedField) resolver) ∈
      delegatedHandlerEffects gluedPath targetPath rxPropName resolver fieldProps form
        delegatedField ∧
    ((delegatedHandlerEffects gluedPath targetPath rxPropName resolver fieldProps form
        delegatedField).countP Effect.isValidate = if s = "" then 0 else 1) := by
  by_cases hs : s = ""
  · subst hs
    simp [delegatedHandlerEffects, observerHandler, hv, Value.truthy,
      List.countP_cons, Effect.isUpdate, Effect.isValidate]
  · simp [delegatedHandlerEffects, observerHandler, hv, Value.truthy, hs,
      List.countP_cons, Effect.isUpdate, Effect.isValidate]

/-- Witness for C6: with the subscriber holding the non-empty value q the
synthetic delivery performs exactly one updateField and one validateField. -/
theorem delegated_synthetic_delivery_witness :
    (delegatedHandlerEffects "a" ["a"] "label" exResolverOnce exFieldPropsFilled exForm
        (Value.node [("value", Value.str "z")])).countP Effect.isUpdate = 1 ∧
    (delegatedHandlerEffects "a" ["a"] "label" exResolverOnce exFieldPropsFilled exForm
        (Value.node [("value", Value.str "z")])).countP Effect.isValidate = 1 := by
  have h := delegated_synthetic_delivery "a" ["a"] "label" exResolverOnce exFieldPropsFilled
      exForm (Value.node [("value", Value.str "z")]) "q" rfl
  exact ⟨h.1, by simpa using h.2.2⟩

/-- C9: when the delegated re-analysis records no entry for the delegated
target path, the observer is still created, inert, with no tracked
properties, the immediate synthetic delivery still performs its single
updateField, and an inert observer never runs the handler for any later
change event. -/
theorem delegated_missing_entry_inert (gluedPath : String) (targetPath : List String)
    (rxPropName : String) (resolver : Resolver) (fieldProps : Value) (form : Form)
    (delegatedField : Value)
    (h : alookup (analyzeResolver form.fields resolver).targetsMap gluedPath = none) :
    (delegatedHandlerEffects gluedPath targetPath rxPropName resolver fieldProps form
        delegatedField).head? = some (Effect.observerCreated targetPath []) ∧
    (delegatedHandlerEffects gluedPath targetPath rxPropName resolver fieldProps form
        delegatedField).countP Effect.isUpdate = 1 ∧
    (∀ prevContextProps ev,
      observerDeliver targetPath [] rxPropName resolver fieldProps form prevContextProps ev =
        []) := by
  refine ⟨?_, ?_, fun prev ev => rfl⟩
  · simp [delegatedHandlerEffects, h]
  · by_cases hb : (fieldProps.get ((fieldProps.get "valuePropName").asStr)).truthy = true
    · simp [delegatedHandlerEffects, observerHandler, hb,
        List.countP_cons, Effect.isUpdate]
    · simp [delegatedHandlerEffects, observerHandler, hb,
        List.countP_cons, Effect.isUpdate]

/-- Witness for C9: a resolver with no subscribe call leaves the fresh map
without an entry for a, yet the observer is created inert and the synthetic
delivery still updates, while later change events deliver nothing. -/
theorem delegated_missing_entry_inert_witness :
    (delegatedHandlerEffects "a" ["a"] "label" exResolverNone exFieldProps exForm
        (Value.node [("value", Value.str "z")])).head? =
      some (Effect.observerCreated ["a"] []) ∧
    observerDeliver ["a"] [] "label" exResolverNone exFieldProps exForm
        (Value.node [("value", Value.str "x")])
        { nextContextProps := Value.node [("value", Value.str "y")],
          shouldValidate := none } = [] := by
  have h := delegated_missing_entry_inert "a" ["a"] "label" exResolverNone exFieldProps
      exForm (Value.node [("value", Value.str "z")]) rfl
  exact ⟨h.1, h.2.2 _ _⟩

end ReactConform
